import Mathlib

/-!
Shallow embedding of the core of `bank-transaction-categorizer`:
the vendor matcher (`src/vendor_matcher.py`), the confidence calculator
(`src/confidence_calculator.py`), the fuzzy duplicate scan
(`src/utils.py`, `DuplicateDetector.find_duplicate_transactions`) and the
CSV-resubmission equality check (`src/compact_processor.py`,
`_transactions_match`).

Modelling conventions:
* Python floats are modelled as `ℚ` (all constants in the code are decimal
  literals, and the claims are about exact decimal thresholds).
* `difflib.SequenceMatcher(None, a, b).ratio()` is a standard-library
  function, not repository code; every embedded function that calls it is
  parameterised by `ratioFn : String → String → ℚ`.
* `math.log10` and `math.exp` are likewise passed as parameters
  (`log10fn`, `expQ`).
* Python's regex word character `\w` is modelled as ASCII alphanumeric or
  underscore, `\s` as `Char.isWhitespace`, and `str.lower` as ASCII
  lowercasing; the strings in the claims are ASCII.
* Python truthiness: an empty string and the float `0.0` are falsy, a
  `datetime` is truthy, `None` is falsy.
* `max`, `min`, `abs` on floats are modelled by the structural helpers
  `qmax`, `qmin`, `qabs` below (definitionally the same functions).
-/

namespace BankCat

/-- Python `max` on two floats. -/
def qmax (a b : ℚ) : ℚ := if a ≤ b then b else a

/-- Python `min` on two floats. -/
def qmin (a b : ℚ) : ℚ := if b ≤ a then b else a

/-- Python `abs` on a float. -/
def qabs (a : ℚ) : ℚ := if a < 0 then -a else a

theorem qmax_le (a b c : ℚ) : qmax a b ≤ c ↔ a ≤ c ∧ b ≤ c := by
  unfold qmax; split <;> constructor <;> intro h <;>
    first
      | exact ⟨le_trans (by linarith) h, h⟩
      | exact ⟨h, le_trans (by linarith) h⟩
      | exact h.2
      | exact h.1

theorem qmax_nonneg (a b : ℚ) (hb : 0 ≤ b) : 0 ≤ qmax a b := by
  unfold qmax; split <;> [exact hb; linarith]

theorem le_qmax_right (a b : ℚ) : b ≤ qmax a b := by
  unfold qmax; split <;> linarith

theorem qmin_le_right (a b : ℚ) : qmin a b ≤ b := by
  unfold qmin; split <;> [exact le_refl b; linarith]

theorem qmin_nonneg (a b : ℚ) (ha : 0 ≤ a) (hb : 0 ≤ b) : 0 ≤ qmin a b := by
  unfold qmin; split <;> assumption

theorem qabs_nonneg (a : ℚ) : 0 ≤ qabs a := by
  unfold qabs; split <;> linarith

/-- Python `str.split()` with no separator: split on whitespace runs,
producing no empty words.  `cur` is the current word, reversed. -/
def splitWords (cur : List Char) : List Char → List (List Char)
  | [] => if cur.isEmpty then [] else [cur.reverse]
  | c :: cs =>
    if c.isWhitespace then
      if cur.isEmpty then splitWords [] cs else cur.reverse :: splitWords [] cs
    else splitWords (c :: cur) cs

/-- Python `str.split()`. -/
def pySplit (s : String) : List String :=
  (splitWords [] s.data).map String.mk

/-- ASCII `str.lower` on one character. -/
def pyCharLower (c : Char) : Char :=
  if 'A' ≤ c ∧ c ≤ 'Z' then Char.ofNat (c.toNat + 32) else c

/-- ASCII `str.lower`. -/
def pyLower (s : String) : String := String.mk (s.data.map pyCharLower)

/-- Drop leading whitespace characters. -/
def dropLeadingWS : List Char → List Char
  | [] => []
  | c :: cs => if c.isWhitespace then dropLeadingWS cs else c :: cs

/-- Python `str.strip()`. -/
def pyStrip (s : String) : String :=
  String.mk (dropLeadingWS (dropLeadingWS s.data.reverse).reverse)

/-! ## vendor_matcher.py : `_normalize_name` -/

/-- `\w` of Python's `re`, restricted to ASCII. -/
def isWordChar (c : Char) : Bool := c.isAlphanum || c == '_'

/-- The alternatives of the suffix regex
`\b(?:inc|llc|ltd|corp|corporation|company|co|aps|a/s|as|bv|gmbh|sarl|srl|ab|oy|plc)\b\.?`,
in the order the regex engine tries them. -/
def suffixAlternatives : List (List Char) :=
  [String.data "inc", String.data "llc", String.data "ltd", String.data "corp",
   String.data "corporation", String.data "company", String.data "co",
   String.data "aps", String.data "a/s", String.data "as", String.data "bv",
   String.data "gmbh", String.data "sarl", String.data "srl", String.data "ab",
   String.data "oy", String.data "plc"]

/-- Match a literal pattern at the head of `s`; return the remainder. -/
def matchLiteral : List Char → List Char → Option (List Char)
  | [], s => some s
  | _ :: _, [] => none
  | p :: ps, c :: cs => if p == c then matchLiteral ps cs else none

/-- The `\b\.?` tail of the suffix regex, applied after an alternative
(all alternatives end in a word character): the next character must be
absent or a non-word character, and a following literal `.` is then
consumed.  Returns `(consumedDot, rest)`. -/
def afterBoundary : List Char → Option (Bool × List Char)
  | [] => some (false, [])
  | c :: cs =>
    if isWordChar c then none
    else if c == '.' then some (true, cs)
    else some (false, c :: cs)

/-- Try the alternatives in order at the current position (the regex
engine backtracks into later alternatives when `\b\.?` fails). -/
def tryAlts (s : List Char) : List (List Char) → Option (Bool × List Char)
  | [] => none
  | alt :: alts =>
    match matchLiteral alt s with
    | some rest =>
      match afterBoundary rest with
      | some r => some r
      | none => tryAlts s alts
    | none => tryAlts s alts

/-- `re.sub(suffixes_pattern, '', name)`: scan left to right, replacing
every leftmost non-overlapping match by the empty string.  `prevIsWord`
tracks whether the character before the current position is a word
character (the pattern starts with `\b` and every alternative starts with
a word character, so a match can only begin after a non-word character or
at the start of the string).  Fuel is the length of the string plus one;
every step consumes at least one character. -/
def subSuffixes : Nat → Bool → List Char → List Char
  | 0, _, s => s
  | _ + 1, _, [] => []
  | fuel + 1, prevIsWord, c :: cs =>
    match (if prevIsWord then none else tryAlts (c :: cs) suffixAlternatives) with
    | some (consumedDot, rest) =>
      -- after a match the previous character is the consumed '.' (non-word)
      -- or the alternative's final letter (a word character)
      subSuffixes fuel (!consumedDot) rest
    | none => c :: subSuffixes fuel (isWordChar c) cs

/-- `re.sub(r'[^\w\s]', ' ', name)`. -/
def stripSpecial (s : List Char) : List Char :=
  s.map fun c => if isWordChar c || c.isWhitespace then c else ' '

/-- `re.sub(r'\s+', ' ', name)`: collapse each run of whitespace to a
single space. -/
def collapseWS : Bool → List Char → List Char
  | _, [] => []
  | prevWS, c :: cs =>
    if c.isWhitespace then
      if prevWS then collapseWS true cs else ' ' :: collapseWS true cs
    else c :: collapseWS false cs

/-- `VendorMatcher._normalize_name`. -/
def normalizeName (name : String) : String :=
  if name = "" then ""
  else
    let n1 := pyStrip (pyLower name)
    let n2 := subSuffixes (n1.data.length + 1) false n1.data
    let n3 := stripSpecial n2
    let n4 := collapseWS false n3
    pyStrip (String.mk n4)

/-! ## vendor_matcher.py : `_calculate_similarity` -/

/-- Python's `in` on strings: `xs` occurs contiguously in `ys`. -/
def isSubstrList (xs : List Char) : List Char → Bool
  | [] => xs.isEmpty
  | y :: ys => xs.isPrefixOf (y :: ys) || isSubstrList xs ys

/-- `VendorMatcher._calculate_similarity`, parameterised by the
`SequenceMatcher.ratio` implementation. -/
def calculateSimilarity (ratioFn : String → String → ℚ) (str1 str2 : String) : ℚ :=
  if str1 = "" ∨ str2 = "" then 0
  else if qabs ((str1.length : ℚ) - (str2.length : ℚ))
      > qmax (str1.length : ℚ) (str2.length : ℚ) * (1/2) then 0
  else if isSubstrList str1.data str2.data || isSubstrList str2.data str1.data then 9/10
  else ratioFn str1 str2

/-! ## confidence_calculator.py -/

/-- A transaction dictionary as read by `ConfidenceCalculator`.  The
`date` value is a `datetime` (always truthy when present), so only its
presence matters here; the other optional fields are strings, falsy
exactly when empty. -/
structure QTransaction where
  text : String
  amount : ℚ
  hasDate : Bool
  sender : String
  receiver : String
  message : String
  currency : String

/-- `ConfidenceCalculator.calculate_transaction_quality_score`,
parameterised by `math.log10`. -/
def calculateTransactionQualityScore (log10fn : ℚ → ℚ) (t : QTransaction) : ℚ :=
  -- Text field quality (0.3 weight)
  let textTerm : ℚ :=
    if t.text ≠ "" then
      (qmin ((t.text.length : ℚ) / 50) 1
        * (7/10 + 3/10 * (((pySplit t.text).length : ℚ) / 10))) * (3/10)
    else 0
  -- Amount validity (0.2 weight), log-scaled
  let amountTerm : ℚ :=
    if t.amount ≠ 0 then
      let absAmount := qabs t.amount
      (if absAmount > 0 then
        qmax (qmin (log10fn (qmax absAmount 1) / 4) 1) (3/10)
      else 3/10) * (2/10)
    else 0
  -- Field completeness (0.3 weight) over {date, sender, receiver, message, currency}
  let filledFields : ℚ :=
    (if t.hasDate then 1 else 0) + (if t.sender ≠ "" then 1 else 0)
    + (if t.receiver ≠ "" then 1 else 0) + (if t.message ≠ "" then 1 else 0)
    + (if t.currency ≠ "" then 1 else 0)
  let completenessTerm : ℚ := (filledFields / 5) * (3/10)
  -- Message quality (0.2 weight)
  let messageTerm : ℚ :=
    if t.message ≠ "" ∧ pyStrip t.message ≠ "" then
      qmin ((t.message.length : ℚ) / 30) 1 * (2/10)
    else 0
  let score := textTerm + amountTerm + completenessTerm + messageTerm
  let maxScore : ℚ := 3/10 + 2/10 + 3/10 + 2/10
  if maxScore > 0 then score / maxScore else 0

/-- The transaction with no populated fields. -/
def emptyQTransaction : QTransaction :=
  { text := "", amount := 0, hasDate := false, sender := "", receiver := ""
    message := "", currency := "" }

/-- `ConfidenceCalculator.calculate_domain_confidence`, parameterised by
the URL-parse check (`urlparse` yielding a nonempty `netloc` on the
constructed URL) and by `math.exp`.  The unused `companyName` parameter is
kept for interface fidelity. -/
def calculateDomainConfidence (netlocOk : String → Bool) (expQ : ℚ → ℚ)
    (domain companyName : String) (responseTime : ℚ) (contentMatches totalWords : ℤ)
    (statusCode : ℤ) : Bool × ℚ :=
  if domain = "" then (false, 0)
  else if !netlocOk domain then (false, 0)
  -- Base confidence from HTTP status
  else if statusCode ≠ 200 then
    (false, qmax (5/100) (1/10 - (((statusCode - 200).natAbs : ℚ) / 1000)))
  else
    -- Response time factor (faster = more reliable)
    let timeFactor : ℚ :=
      if responseTime > 0 then
        if responseTime < 1 then 1 else if responseTime < 3 then 9/10 else 8/10
      else 1
    -- Content relevance scoring, sigmoid on the match ratio
    let contentScore : ℚ :=
      if contentMatches > 0 ∧ totalWords > 0 then
        let matchRatioVal : ℚ := (contentMatches : ℚ) / (totalWords : ℚ)
        2/10 + 6/10 * (1 / (1 + expQ (-5 * (matchRatioVal - 3/10))))
      else 2/10
    let domainQuality : ℚ := 1
    let finalConfidence := contentScore * timeFactor * domainQuality
    (true, qmax (1/10) (qmin finalConfidence 1))

/-- `ConfidenceCalculator.calculate_vendor_confidence`, parameterised by
`SequenceMatcher.ratio` and `math.exp`.  The optional
`identification_confidence` is tested with Python truthiness: both `None`
and `0.0` are falsy, so no blend happens for them. -/
def calculateVendorConfidence (ratioFn : String → String → ℚ) (expQ : ℚ → ℚ)
    (vendorName : String) (t : QTransaction) (identificationConfidence : Option ℚ) : ℚ :=
  if vendorName = "" then 0
  else
    let textContent := pyLower (String.intercalate " " [t.text, t.message, t.sender, t.receiver])
    let vendorLower := pyLower vendorName
    let similarityScore := ratioFn vendorLower textContent
    -- best per-word similarity among words longer than 2 characters
    let bestPartialMatch :=
      (pySplit textContent).foldl
        (fun best word =>
          if word.length > 2 then qmax best (ratioFn vendorLower word) else best) 0
    let combinedSimilarity := qmax similarityScore (bestPartialMatch * (8/10))
    let similarityConfidence := 1 / (1 + expQ (-8 * (combinedSimilarity - 4/10)))
    let finalConfidence :=
      match identificationConfidence with
      | some c => if c ≠ 0 then (6/10) * similarityConfidence + (4/10) * c
                  else similarityConfidence
      | none => similarityConfidence
    qmax 0 (qmin finalConfidence 1)

/-! ## vendor_matcher.py : `find_existing_vendor` -/

/-- A stored vendor row (the fields the matcher reads). -/
structure Vendor where
  name : String
  nicknames : String
  domain : Option String
deriving DecidableEq

/-- SQL LIKE matching, case-insensitive (the semantics of `ilike`): in
the pattern, `%` matches any sequence of characters, `_` matches exactly
one character, and every other character matches itself up to case; no
escape character (none is configured at the call site).  Fuel is
`pattern.length + s.length + 1`: each recursive call shrinks the pattern
or the string, so the fuel never runs out. -/
def likeMatchFuel : Nat → List Char → List Char → Bool
  | 0, _, _ => false
  | _ + 1, [], s => s.isEmpty
  | fuel + 1, p :: ps, s =>
    if p == '%' then
      likeMatchFuel fuel ps s ||
        (match s with
         | [] => false
         | _ :: s2 => likeMatchFuel fuel (p :: ps) s2)
    else
      match s with
      | [] => false
      | c :: s2 => (p == '_' || pyCharLower p == pyCharLower c) && likeMatchFuel fuel ps s2

/-- `column.ilike(pattern)` applied to a stored value. -/
def ilikeMatch (stored pattern : String) : Bool :=
  likeMatchFuel (pattern.data.length + stored.data.length + 1) pattern.data stored.data

/-- `VendorMatcher._find_exact_match`.  The database query
`Vendor.name.ilike(original_name)` is SQL LIKE matching of each stored
name against the queried name as a pattern (case-insensitive, with `%`
and `_` wildcards), and `.first()` is the first row in iteration order;
the second pass compares normalized names over the full vendor list. -/
def findExactMatch (vendors : List Vendor) (originalName normalizedName : String) :
    Option Vendor :=
  match vendors.find? (fun v => ilikeMatch v.name originalName) with
  | some v => some v
  | none => vendors.find? (fun v => normalizeName v.name = normalizedName)

/-- `VendorMatcher.find_existing_vendor`, parameterised by the fuzzy pass
`_find_fuzzy_match` (which receives the normalized input) so that
independence from fuzzy scoring can be stated. -/
def findExistingVendor (fuzzy : String → Option (Vendor × ℚ))
    (vendors : List Vendor) (vendorName : String) : Option (Vendor × ℚ) :=
  if vendorName = "" then none
  else
    let normalizedInput := normalizeName vendorName
    if normalizedInput = "" then none
    else
      match findExactMatch vendors vendorName normalizedInput with
      | some v => some (v, 1)
      | none => fuzzy normalizedInput

/-! ## compact_processor.py : `_transactions_match` -/

/-- A parsed CSV transaction as compared by the resubmission check:
`date` is a `datetime` (modelled as rational seconds since an epoch;
missing/None is falsy), `amount` a float, `text` the description. -/
structure CTransaction where
  date : Option ℚ
  amount : ℚ
  text : String

/-- `CompactTransactionProcessor.process_csv_with_duplicate_check`'s
inner `_transactions_match`: amounts within `0.01`, texts exactly equal,
dates within 24 hours (`86400` seconds); `False` when either date is
missing. -/
def transactionsMatch (t1 t2 : CTransaction) : Bool :=
  match t1.date, t2.date with
  | some d1, some d2 =>
    decide (qabs (t1.amount - t2.amount) < 1/100) && (t1.text == t2.text)
      && decide (qabs (d1 - d2) < 86400)
  | _, _ => false

/-! ## utils.py : `DuplicateDetector.find_duplicate_transactions` -/

/-- A newly parsed transaction dictionary (its `date` key is always set
by the CSV parser). -/
structure NewTrans where
  date : ℚ
  amount : ℚ
  text : String

/-- A stored `Transaction` row: `date` and `text` are nullable columns. -/
structure ExistingTrans where
  date : Option ℚ
  amount : ℚ
  text : Option String

/-- `abs((new_trans["date"] - existing.date).days) if existing.date else
999`: `timedelta.days` floors the difference in days. -/
def dupDateDiff (n : NewTrans) (e : ExistingTrans) : ℕ :=
  match e.date with
  | some d => (⌊(n.date - d) / 86400⌋).natAbs
  | none => 999

/-- The inner `for existing in existing_transactions` loop for one new
transaction: `continue` on the date, amount and similarity checks, and
`break` after the first append — so the result is the first accepted
existing transaction, paired with its composite score. -/
def scanExisting (ratioFn : String → String → ℚ) (n : NewTrans) :
    List ExistingTrans → Option (ExistingTrans × ℚ)
  | [] => none
  | e :: rest =>
    if dupDateDiff n e > 1 then scanExisting ratioFn n rest
    else if qabs (n.amount - e.amount) > 1/100 then scanExisting ratioFn n rest
    else
      let textSimilarity := ratioFn (pyLower n.text) (pyLower (e.text.getD ""))
      if textSimilarity ≥ 85/100 then
        some (e, (if dupDateDiff n e = 0 then 1 else 8/10) * (3/10)
          + 1 * (3/10) + textSimilarity * (4/10))
      else scanExisting ratioFn n rest

/-- The lookback window: the database query
`Transaction.date >= now - timedelta(days=days_lookback)` (`NULL` dates
are excluded by SQL comparison semantics). -/
def lookbackFilter (now : ℚ) (daysLookback : ℕ) (dbTransactions : List ExistingTrans) :
    List ExistingTrans :=
  let cutoffDate := now - (daysLookback : ℚ) * 86400
  dbTransactions.filter fun e =>
    match e.date with
    | some d => decide (cutoffDate ≤ d)
    | none => false

/-- `DuplicateDetector.find_duplicate_transactions`, parameterised by
`SequenceMatcher.ratio` and by the current time (the lookback cutoff). -/
def findDuplicateTransactions (ratioFn : String → String → ℚ) (now : ℚ)
    (daysLookback : ℕ) (newTransactions : List NewTrans)
    (dbTransactions : List ExistingTrans) : List (NewTrans × ExistingTrans × ℚ) :=
  let existingTransactions := lookbackFilter now daysLookback dbTransactions
  newTransactions.foldr
    (fun n acc =>
      match scanExisting ratioFn n existingTransactions with
      | some (e, s) => (n, e, s) :: acc
      | none => acc) []

/-- The acceptance predicate of the scan, spelled out: date proximity,
amount proximity and text similarity. -/
def dupPasses (ratioFn : String → String → ℚ) (n : NewTrans) (e : ExistingTrans) : Bool :=
  decide (dupDateDiff n e ≤ 1) && decide (qabs (n.amount - e.amount) ≤ 1/100)
    && decide (ratioFn (pyLower n.text) (pyLower (e.text.getD "")) ≥ 85/100)

/-- The composite similarity score of an accepted pair. -/
def dupScore (ratioFn : String → String → ℚ) (n : NewTrans) (e : ExistingTrans) : ℚ :=
  (if dupDateDiff n e = 0 then 1 else 8/10) * (3/10) + 1 * (3/10)
    + ratioFn (pyLower n.text) (pyLower (e.text.getD "")) * (4/10)

theorem isPrefixOf_self (xs : List Char) : xs.isPrefixOf xs = true := by
  induction xs with
  | nil => rfl
  | cons x xs ih => simp [List.isPrefixOf, ih]

theorem isSubstrList_self (xs : List Char) : isSubstrList xs xs = true := by
  cases xs with
  | nil => rfl
  | cons x xs => simp [isSubstrList, isPrefixOf_self]

end BankCat

namespace BankCat

/-! ## Claim C1 -/

/-- C1 counterexample: the claim that `calculate_similarity(s, s) = 1.0`
for nonempty `s` is false: at `s = "a"` the substring branch fires first
and the function returns `0.9` — even when the underlying
`SequenceMatcher.ratio` would have returned `1.0`. -/
theorem c1_counterexample :
    calculateSimilarity (fun _ _ => 1) "a" "a" = 9/10 ∧ ((9:ℚ)/10) ≠ 1 := by
  constructor
  · have hne : ¬(("a":String) = "" ∨ ("a":String) = "") := by decide
    have hsub : (isSubstrList "a".data "a".data || isSubstrList "a".data "a".data) = true := by
      decide
    have hlen : "a".length = 1 := rfl
    rw [calculateSimilarity, if_neg hne]
    norm_num [hlen, qabs, qmax]
    decide
  · norm_num

/-- C1 (amended): for every nonempty string `s`,
`_calculate_similarity(s, s)` returns exactly `0.9`, not `1.0`: `s` is a
substring of itself, so the substring branch returns `0.9` before the
character-sequence ratio is ever consulted (for any ratio function). -/
theorem c1_self_similarity (ratioFn : String → String → ℚ) (s : String)
    (hs : s ≠ "") : calculateSimilarity ratioFn s s = 9/10 := by
  rw [calculateSimilarity]
  rw [if_neg (by simp [hs]), if_neg, if_pos (by simp [isSubstrList_self])]
  have h0 : ((s.length : ℚ) - (s.length : ℚ)) = 0 := by ring
  have hq : qmax (s.length : ℚ) (s.length : ℚ) = (s.length : ℚ) := by
    unfold qmax; split <;> rfl
  rw [h0, hq]
  unfold qabs
  norm_num

/-- C1 witness for the amended theorem. -/
theorem c1_self_similarity_witness :
    calculateSimilarity (fun _ _ => 0) "acme" "acme" = 9/10 :=
  c1_self_similarity (fun _ _ => 0) "acme" (by decide)

/-! ## Claim C2 -/

/-- A fully populated transaction whose text has 20 words: the word-count
bonus `0.7 + 0.3 * (words / 10)` is `1.3`, pushing the text term to
`0.39` and the total to `1.09`.  The log10 stand-in is consulted only at
`10000`, where `math.log10` returns exactly `4`. -/
def c2Transaction : QTransaction where
  text := "abc abc abc abc abc abc abc abc abc abc abc abc abc abc abc abc abc abc abc abc"
  amount := 10000
  hasDate := true
  sender := "Sender"
  receiver := "Receiver"
  message := "payment reference 1234567890!!"
  currency := "DKK"

/-- C2 counterexample: the quality score is not bounded by `1`: on a
fully populated transaction whose 79-character text has 20 words, the
word-count bonus makes the text term exceed its `0.3` weight and the
total score is `1.09 > 1`. -/
theorem c2_counterexample :
    1 < calculateTransactionQualityScore (fun _ => 4) c2Transaction := by
  have h1 : c2Transaction.text ≠ "" := by decide
  have h2 : c2Transaction.amount = 10000 := rfl
  have h3 : c2Transaction.hasDate = true := rfl
  have h4 : c2Transaction.sender ≠ "" := by decide
  have h5 : c2Transaction.receiver ≠ "" := by decide
  have h6 : c2Transaction.message ≠ "" := by decide
  have h7 : c2Transaction.currency ≠ "" := by decide
  have h8 : pyStrip c2Transaction.message ≠ "" := by decide
  have h9 : c2Transaction.text.length = 79 := rfl
  have h10 : (pySplit c2Transaction.text).length = 20 := rfl
  have h11 : c2Transaction.message.length = 30 := rfl
  rw [calculateTransactionQualityScore]
  norm_num [h1, h2, h3, h4, h5, h6, h7, h8, h9, h10, h11, qabs, qmin, qmax]

/-- C2 (amended): for every transaction and every log10 function the
quality score is nonnegative, and the transaction with no populated
fields scores exactly `0.0`; the upper bound `1` of the original claim
does not hold (see the counterexample), because the word-count bonus can
push the text term above its weight. -/
theorem c2_quality_score_bounds (log10fn : ℚ → ℚ) (t : QTransaction) :
    0 ≤ calculateTransactionQualityScore log10fn t ∧
    calculateTransactionQualityScore log10fn emptyQTransaction = 0 := by
  constructor
  · rw [calculateTransactionQualityScore]
    norm_num
    refine add_nonneg (add_nonneg (add_nonneg ?_ ?_) ?_) ?_
    · split
      · norm_num
      · exact mul_nonneg (mul_nonneg
          (qmin_nonneg _ _ (by positivity) (by norm_num)) (by positivity)) (by norm_num)
    · split
      · norm_num
      · split
        · exact mul_nonneg (le_trans (by norm_num) (le_qmax_right _ _)) (by norm_num)
        · norm_num
    · refine mul_nonneg (div_nonneg ?_ (by norm_num)) (by norm_num)
      refine add_nonneg (add_nonneg (add_nonneg (add_nonneg ?_ ?_) ?_) ?_) ?_ <;>
        split <;> norm_num
    · split
      · exact mul_nonneg (qmin_nonneg _ _ (by positivity) (by norm_num)) (by norm_num)
      · norm_num
  · norm_num [calculateTransactionQualityScore, emptyQTransaction]

/-- On a pattern free of `%` and `_`, LIKE matching degenerates to
case-insensitive equality. -/
theorem likeMatchFuel_no_wildcard :
    ∀ (fuel : Nat) (pattern s : List Char),
      (∀ c ∈ pattern, c ≠ '%' ∧ c ≠ '_') →
      pattern.length + s.length < fuel →
      (likeMatchFuel fuel pattern s = true ↔ s.map pyCharLower = pattern.map pyCharLower)
  | 0, _, _, _, hfuel => absurd hfuel (by omega)
  | _ + 1, [], s, _, _ => by
    cases s <;> simp [likeMatchFuel]
  | fuel + 1, p :: ps, s, hnw, hfuel => by
    obtain ⟨hp1, hp2⟩ := hnw p (List.mem_cons_self p ps)
    have hpb : (p == '%') = false := beq_eq_false_iff_ne.mpr hp1
    have hub : (p == '_') = false := beq_eq_false_iff_ne.mpr hp2
    cases s with
    | nil => simp [likeMatchFuel, hpb]
    | cons c s2 =>
      have hrec := likeMatchFuel_no_wildcard fuel ps s2
        (fun x hx => hnw x (List.mem_cons_of_mem p hx))
        (by simp only [List.length_cons] at hfuel ⊢; omega)
      simp only [likeMatchFuel, hpb, Bool.false_eq_true, if_false, hub, Bool.false_or,
        Bool.and_eq_true, beq_iff_eq, hrec, List.map_cons, List.cons.injEq]
      constructor
      · rintro ⟨h1, h2⟩; exact ⟨h1.symm, h2⟩
      · rintro ⟨h1, h2⟩; exact ⟨h1.symm, h2⟩

/-- `ilike` with a wildcard-free queried name is case-insensitive
equality of the two strings. -/
theorem ilikeMatch_no_wildcard (stored name : String)
    (hnw : ∀ c ∈ name.data, c ≠ '%' ∧ c ≠ '_') :
    ilikeMatch stored name = true ↔ pyLower stored = pyLower name := by
  unfold ilikeMatch
  rw [likeMatchFuel_no_wildcard _ _ _ hnw (by omega)]
  simp [pyLower, String.ext_iff]

/-- When the queried name is wildcard-free, the first `ilike` hit of the
exact pass is the vendor itself when the case-insensitive match is
unique. -/
theorem find?_ilike_unique (name : String) (v : Vendor)
    (hnw : ∀ c ∈ name.data, c ≠ '%' ∧ c ≠ '_') :
    ∀ vendors : List Vendor, v ∈ vendors → pyLower v.name = pyLower name →
      (∀ w ∈ vendors, pyLower w.name = pyLower name → w = v) →
      vendors.find? (fun w => ilikeMatch w.name name) = some v
  | [], hv, _, _ => absurd hv (List.not_mem_nil v)
  | u :: us, hv, heq, huniq => by
    rw [List.find?]
    by_cases hu : pyLower u.name = pyLower name
    · rw [(ilikeMatch_no_wildcard u.name name hnw).mpr hu]
      exact congrArg some (huniq u (List.mem_cons_self u us) hu)
    · have hfalse : ilikeMatch u.name name = false := by
        cases h : ilikeMatch u.name name
        · rfl
        · exact absurd ((ilikeMatch_no_wildcard u.name name hnw).mp h) hu
      rw [hfalse]
      have hvus : v ∈ us := by
        rcases List.mem_cons.mp hv with h | h
        · exact absurd (h ▸ heq) hu
        · exact h
      exact find?_ilike_unique name v hnw us hvus heq
        (fun w hw hweq => huniq w (List.mem_cons_of_mem u hw) hweq)

/-- The inner scan loop is exactly "first existing transaction passing
the date, amount and similarity checks, with its composite score". -/
theorem scanExisting_eq_find? (ratioFn : String → String → ℚ) (n : NewTrans) :
    ∀ l : List ExistingTrans,
      scanExisting ratioFn n l =
        (l.find? (dupPasses ratioFn n)).map (fun e => (e, dupScore ratioFn n e))
  | [] => rfl
  | e :: rest => by
    simp only [scanExisting, List.find?]
    by_cases h1 : dupDateDiff n e > 1
    · have hp : dupPasses ratioFn n e = false := by
        simp only [dupPasses, Bool.and_eq_false_iff]
        exact Or.inl (Or.inl (decide_eq_false (by omega)))
      rw [if_pos h1, hp]
      exact scanExisting_eq_find? ratioFn n rest
    · rw [if_neg h1]
      by_cases h2 : qabs (n.amount - e.amount) > 1/100
      · have hp : dupPasses ratioFn n e = false := by
          simp only [dupPasses, Bool.and_eq_false_iff]
          exact Or.inl (Or.inr (decide_eq_false (by linarith)))
        rw [if_pos h2, hp]
        exact scanExisting_eq_find? ratioFn n rest
      · rw [if_neg h2]
        by_cases h3 : ratioFn (pyLower n.text) (pyLower (e.text.getD "")) ≥ 85/100
        · have hp : dupPasses ratioFn n e = true := by
            simp only [dupPasses, Bool.and_eq_true]
            exact ⟨⟨decide_eq_true (by omega), decide_eq_true (by linarith)⟩,
              decide_eq_true h3⟩
          rw [if_pos h3, hp]
          rfl
        · have hp : dupPasses ratioFn n e = false := by
            simp only [dupPasses, Bool.and_eq_false_iff]
            exact Or.inr (decide_eq_false h3)
          rw [if_neg h3, hp]
          exact scanExisting_eq_find? ratioFn n rest

/-- Every tuple of the duplicate fold comes from a successful inner scan
for its own new transaction. -/
theorem mem_dupFold (ratioFn : String → String → ℚ) (ex : List ExistingTrans) :
    ∀ (newTs : List NewTrans) (n : NewTrans) (e : ExistingTrans) (s : ℚ),
      (n, e, s) ∈ newTs.foldr
        (fun m acc =>
          match scanExisting ratioFn m ex with
          | some (e, s) => (m, e, s) :: acc
          | none => acc) [] →
      scanExisting ratioFn n ex = some (e, s)
  | [], _, _, _, h => absurd h (List.not_mem_nil _)
  | m :: rest, n, e, s, h => by
    rw [List.foldr] at h
    cases hscan : scanExisting ratioFn m ex with
    | some p =>
      obtain ⟨e', s'⟩ := p
      rw [hscan] at h
      rcases List.mem_cons.mp h with heq | hmem
      · simp only [Prod.mk.injEq] at heq
        obtain ⟨rfl, rfl, rfl⟩ := heq
        exact hscan
      · exact mem_dupFold ratioFn ex rest n e s hmem
    | none =>
      rw [hscan] at h
      exact mem_dupFold ratioFn ex rest n e s h

/-- A successful inner scan yields an accepted pair and its composite
score. -/
theorem scanExisting_some (ratioFn : String → String → ℚ) (n : NewTrans)
    (l : List ExistingTrans) (e : ExistingTrans) (s : ℚ)
    (h : scanExisting ratioFn n l = some (e, s)) :
    dupPasses ratioFn n e = true ∧ s = dupScore ratioFn n e := by
  rw [scanExisting_eq_find? ratioFn n l] at h
  cases hf : l.find? (dupPasses ratioFn n) with
  | none => rw [hf] at h; exact absurd h (by simp)
  | some e' =>
    rw [hf] at h
    simp only [Option.map_some', Option.some.injEq, Prod.mk.injEq] at h
    obtain ⟨rfl, rfl⟩ := h
    exact ⟨List.find?_some hf, rfl⟩

/-! ## Claim C5 -/

/-- C5: the fuzzy duplicate scan never includes a pair whose amounts
differ by `0.02`: the scan skips any existing transaction whose amount
differs from the new one by more than `0.01`, regardless of text
similarity (for every ratio function). -/
theorem c5_amount_gap_never_flagged (ratioFn : String → String → ℚ) (now : ℚ)
    (daysLookback : ℕ) (newTs : List NewTrans) (dbTs : List ExistingTrans)
    (n : NewTrans) (e : ExistingTrans) (s : ℚ)
    (hgap : qabs (n.amount - e.amount) = 2/100) :
    (n, e, s) ∉ findDuplicateTransactions ratioFn now daysLookback newTs dbTs := by
  intro hmem
  simp only [findDuplicateTransactions] at hmem
  have hscan := mem_dupFold ratioFn (lookbackFilter now daysLookback dbTs) newTs n e s hmem
  obtain ⟨hp, -⟩ := scanExisting_some ratioFn n _ e s hscan
  simp only [dupPasses, Bool.and_eq_true, decide_eq_true_eq] at hp
  linarith [hp.1.2]

/-- C5 witness: a concrete pair with amounts `1.02` and `1.00` and
perfectly similar texts is not in the scan's result. -/
theorem c5_amount_gap_never_flagged_witness :
    ((⟨0, 102/100, "a"⟩ : NewTrans), (⟨some 0, 1, some "a"⟩ : ExistingTrans), (1 : ℚ)) ∉
      findDuplicateTransactions (fun _ _ => 1) 0 7 [⟨0, 102/100, "a"⟩]
        [⟨some 0, 1, some "a"⟩] :=
  c5_amount_gap_never_flagged (fun _ _ => 1) 0 7 _ _ _ _ _ (by norm_num [qabs])

/-! ## Claim C8 -/

/-- C8: the duplicate scan returns, for each new transaction, at most one
tuple, whose existing transaction is the first element in iteration order
of the (lookback-filtered) stored transactions passing the date-proximity,
amount and text-similarity checks — first match wins, not best match —
and consequently the result has at most one entry per new transaction. -/
theorem c8_first_match_wins (ratioFn : String → String → ℚ) (now : ℚ)
    (daysLookback : ℕ) (newTs : List NewTrans) (dbTs : List ExistingTrans) :
    findDuplicateTransactions ratioFn now daysLookback newTs dbTs =
      newTs.filterMap (fun n =>
        ((lookbackFilter now daysLookback dbTs).find? (dupPasses ratioFn n)).map
          (fun e => (n, e, dupScore ratioFn n e))) ∧
    (findDuplicateTransactions ratioFn now daysLookback newTs dbTs).length ≤
      newTs.length := by
  have hmain : findDuplicateTransactions ratioFn now daysLookback newTs dbTs =
      newTs.filterMap (fun n =>
        ((lookbackFilter now daysLookback dbTs).find? (dupPasses ratioFn n)).map
          (fun e => (n, e, dupScore ratioFn n e))) := by
    simp only [findDuplicateTransactions]
    induction newTs with
    | nil => rfl
    | cons m rest ih =>
      rw [List.foldr, List.filterMap_cons, ih, scanExisting_eq_find?]
      cases (lookbackFilter now daysLookback dbTs).find? (dupPasses ratioFn m) with
      | none => rfl
      | some e' => rfl
  exact ⟨hmain, hmain ▸ List.length_filterMap_le _ _⟩

/-! ## Claim C10 -/

/-- C10: every similarity score in the duplicate scan's result lies in
`[0.88, 1.0]`: accepted pairs have text similarity at least `0.85` and
date factor at least `0.8`, so
`0.3 * dateFactor + 0.3 + 0.4 * textSimilarity ≥ 0.88`, and the ratio
function's upper bound `1` gives the upper bound `1.0`. -/
theorem c10_score_bounds (ratioFn : String → String → ℚ) (now : ℚ)
    (daysLookback : ℕ) (newTs : List NewTrans) (dbTs : List ExistingTrans)
    (n : NewTrans) (e : ExistingTrans) (s : ℚ)
    (hr : ∀ a b, ratioFn a b ≤ 1)
    (hmem : (n, e, s) ∈ findDuplicateTransactions ratioFn now daysLookback newTs dbTs) :
    88/100 ≤ s ∧ s ≤ 1 := by
  simp only [findDuplicateTransactions] at hmem
  have hscan := mem_dupFold ratioFn (lookbackFilter now daysLookback dbTs) newTs n e s hmem
  obtain ⟨hp, rfl⟩ := scanExisting_some ratioFn n _ e s hscan
  simp only [dupPasses, Bool.and_eq_true, decide_eq_true_eq] at hp
  obtain ⟨⟨-, -⟩, hsim⟩ := hp
  have hrb := hr (pyLower n.text) (pyLower (e.text.getD ""))
  unfold dupScore
  constructor <;> split <;> linarith

/-- C10 witness: with a ratio function constantly `0.9`, a same-day
same-amount pair is flagged with composite score `0.96`, which the
theorem places in `[0.88, 1.0]`. -/
theorem c10_score_bounds_witness :
    ((⟨0, 1, "shop"⟩ : NewTrans), (⟨some 0, 1, some "shop"⟩ : ExistingTrans),
        (96/100 : ℚ)) ∈
      findDuplicateTransactions (fun _ _ => 9/10) 0 7 [⟨0, 1, "shop"⟩]
        [⟨some 0, 1, some "shop"⟩] ∧
    (88/100 : ℚ) ≤ 96/100 ∧ (96/100 : ℚ) ≤ 1 := by
  have hmem : ((⟨0, 1, "shop"⟩ : NewTrans),
      (⟨some 0, 1, some "shop"⟩ : ExistingTrans), (96/100 : ℚ)) ∈
      findDuplicateTransactions (fun _ _ => 9/10) 0 7 [⟨0, 1, "shop"⟩]
        [⟨some 0, 1, some "shop"⟩] := by
    norm_num [findDuplicateTransactions, lookbackFilter, scanExisting, dupDateDiff,
      qabs, List.filter, List.foldr]
  exact ⟨hmem, c10_score_bounds (fun _ _ => 9/10) 0 7 _ _ _ _ _
    (fun a b => by norm_num) hmem⟩

/-! ## Claim C3 -/

/-- C3 counterexample: a stored vendor named `"Co"` is case-insensitively
equal to the query `"co"`, yet `find_existing_vendor` returns `None` (not
the vendor with score `1.0`): the query's normalization is the empty
string — `"co"` is itself a business suffix — and the function bails out
before the exact pass, whatever the fuzzy matcher would say. -/
theorem c3_counterexample :
    pyLower (Vendor.mk "Co" "" none).name = pyLower "co" ∧
    findExistingVendor (fun _ => some (Vendor.mk "Co" "" none, 1))
      [Vendor.mk "Co" "" none] "co" = none := by
  constructor
  · decide
  · rw [findExistingVendor]
    norm_num
    decide

/-- C3 (amended): if the queried vendor name is nonempty, contains no
SQL LIKE wildcard (`%` or `_`, which `ilike` would interpret in the
query), its normalization is nonempty, and a stored vendor's canonical
name equals the query under case-insensitive comparison (uniquely so, per
the canonical-name uniqueness invariant), then `find_existing_vendor`
returns that vendor with score exactly `1.0`, for every fuzzy matcher —
i.e. no fuzzy scoring pass influences the result. -/
theorem c3_exact_match_short_circuits (fuzzy : String → Option (Vendor × ℚ))
    (vendors : List Vendor) (name : String) (v : Vendor)
    (hname : name ≠ "") (hnw : ∀ c ∈ name.data, c ≠ '%' ∧ c ≠ '_')
    (hnorm : normalizeName name ≠ "")
    (hv : v ∈ vendors) (heq : pyLower v.name = pyLower name)
    (huniq : ∀ w ∈ vendors, pyLower w.name = pyLower name → w = v) :
    findExistingVendor fuzzy vendors name = some (v, 1) := by
  rw [findExistingVendor, if_neg hname]
  simp only [if_neg hnorm]
  rw [findExactMatch, find?_ilike_unique name v hnw vendors hv heq huniq]

/-- C3 witness for the amended theorem. -/
theorem c3_exact_match_short_circuits_witness :
    findExistingVendor (fun _ => none) [Vendor.mk "Acme" "" none] "ACME" =
      some (Vendor.mk "Acme" "" none, 1) :=
  c3_exact_match_short_circuits (fun _ => none) [Vendor.mk "Acme" "" none] "ACME"
    (Vendor.mk "Acme" "" none) (by decide) (by decide) (by decide) (by decide)
    (by decide) (by decide)

/-! ## Claim C4 -/

/-- C4: for two transactions whose amounts differ by less than `0.01`
and whose description texts are exactly equal, the CSV-resubmission
equality check returns `True` when their dates are 12 hours
(43200 seconds) apart and `False` when they are 36 hours
(129600 seconds) apart. -/
theorem c4_resubmission_window (a1 a2 d : ℚ) (s : String)
    (hamt : qabs (a1 - a2) < 1/100) :
    transactionsMatch ⟨some d, a1, s⟩ ⟨some (d + 43200), a2, s⟩ = true ∧
    transactionsMatch ⟨some d, a1, s⟩ ⟨some (d + 129600), a2, s⟩ = false := by
  have h1 : qabs (d - (d + 43200)) = 43200 := by
    unfold qabs; rw [show d - (d + 43200) = -43200 by ring]; norm_num
  have h2 : qabs (d - (d + 129600)) = 129600 := by
    unfold qabs; rw [show d - (d + 129600) = -129600 by ring]; norm_num
  constructor
  · simp only [transactionsMatch, h1, hamt]
    norm_num
  · simp only [transactionsMatch, h2]
    norm_num

/-- C4 witness. -/
theorem c4_resubmission_window_witness :
    transactionsMatch ⟨some 0, 5, "x"⟩ ⟨some (0 + 43200), 5, "x"⟩ = true ∧
    transactionsMatch ⟨some 0, 5, "x"⟩ ⟨some (0 + 129600), 5, "x"⟩ = false :=
  c4_resubmission_window 5 5 0 "x" (by norm_num [qabs])

/-! ## Claim C6 -/

/-- C6: for every domain string that passes basic URL parsing (nonempty
and accepted by the netloc check), `calculate_domain_confidence` with
`status_code = 404` returns `(False, x)` with `x ≤ 0.1` — concretely
`x = max(0.05, 0.1 − 204/1000) = 0.05`. -/
theorem c6_domain_confidence_404 (netlocOk : String → Bool) (expQ : ℚ → ℚ)
    (domain companyName : String) (responseTime : ℚ) (contentMatches totalWords : ℤ)
    (hd : domain ≠ "") (hp : netlocOk domain = true) :
    (calculateDomainConfidence netlocOk expQ domain companyName responseTime
        contentMatches totalWords 404).1 = false ∧
    (calculateDomainConfidence netlocOk expQ domain companyName responseTime
        contentMatches totalWords 404).2 ≤ 1/10 := by
  rw [calculateDomainConfidence]
  norm_num [hd, hp, qmax]

/-- C6 witness. -/
theorem c6_domain_confidence_404_witness :
    (calculateDomainConfidence (fun _ => true) (fun _ => 1) "example.com" "Example"
        0 0 1 404).1 = false ∧
    (calculateDomainConfidence (fun _ => true) (fun _ => 1) "example.com" "Example"
        0 0 1 404).2 ≤ 1/10 :=
  c6_domain_confidence_404 (fun _ => true) (fun _ => 1) "example.com" "Example"
    0 0 1 (by decide) rfl

/-! ## Claim C9 -/

/-- C9: an `identification_confidence` of exactly `0.0` is Python-falsy,
so `calculate_vendor_confidence` ignores it and the 60/40 blend is not
applied: the result is the same as calling with no identification
confidence at all — for every vendor name, transaction, ratio function
and exp function. -/
theorem c9_zero_identification_ignored (ratioFn : String → String → ℚ)
    (expQ : ℚ → ℚ) (vendorName : String) (t : QTransaction) :
    calculateVendorConfidence ratioFn expQ vendorName t (some 0) =
    calculateVendorConfidence ratioFn expQ vendorName t none := by
  rw [calculateVendorConfidence, calculateVendorConfidence]
  simp

/-! ## Claim C7 -/

/-- C7: normalizing `"Acme Corp."` and `"acme corp"` yields the same
string (both normalize to `"acme"`: lowercasing, suffix removal of
`corp` tolerating the trailing period, and whitespace cleanup). -/
theorem c7_normalize_acme :
    normalizeName "Acme Corp." = normalizeName "acme corp" := by decide

end BankCat
